import Mathlib

/-!
Verification of the webreg_scraper repository core against its specification.

The definitions below are shallow embeddings of the Rust source:

* `StatTracker` and `StatTracker.add_stat` embed
  crates/webreg/src/types.rs (StatTracker::add_stat).
* `KeyEntry`, `check_key`, `generate_api_key` embed
  crates/basicauth/src/lib.rs (AuthManager).
* `checkTerms`, `processIter`, `loginLoop` embed the register loop of
  crates/webreg/src/scraper/tracker.rs (login_with_cookies).
* `searchPass`, `innerPoll`, `trackLoop` embed the polling loop of
  crates/webreg/src/scraper/tracker.rs (track_webreg_enrollment), with time
  measured as a global event counter (one tick per stop-flag read and per
  portal call) so that statements about the stop flag being raised at a given
  instant can be made.
* `profJoin`, `csvRow`, `splitComma` embed the CSV emission code of
  track_webreg_enrollment and a comma-splitting parser for the roundtrip
  property.
* `post_drop_section` embeds src/server/endpoints/ww_cookies.rs.
* `validate_term`, `get_timing_stats`, `get_health`, `healthRoute`,
  `authLayer`, `get_login_script_stats` embed src/server/mod.rs
  (create_router), the middleware files and
  crates/webreg/src/server/endpoints/status.rs.
-/

/-! ## Stats tracker (crates/webreg/src/types.rs) -/

/-- Capacity of the recent-latencies queue (`MAX_RECENT_REQUESTS` in types.rs). -/
def MAX_RECENT_REQUESTS : Nat := 2000

/-- State of `StatTracker` from types.rs.  The `VecDeque` is a list whose head is
the oldest element; the atomics are plain naturals in this single-writer model. -/
structure StatTracker where
  recent_requests : List Nat
  num_requests : Nat
  total_time_spent : Nat
deriving DecidableEq

/-- The `while recent_requests.len() >= MAX_RECENT_REQUESTS { pop_front }` loop in
`StatTracker::add_stat`. -/
def evictFront (q : List Nat) : List Nat :=
  if MAX_RECENT_REQUESTS ≤ q.length then
    match q with
    | [] => []
    | _ :: rest => evictFront rest
  else q

/-- `StatTracker::add_stat`: increment both counters, evict from the front until
below capacity, append the new sample at the back. -/
def StatTracker.add_stat (t : StatTracker) (time_of_req : Nat) : StatTracker :=
  { recent_requests := evictFront t.recent_requests ++ [time_of_req]
    num_requests := t.num_requests + 1
    total_time_spent := t.total_time_spent + time_of_req }

/-- A freshly constructed tracker (all fields `Default::default()`). -/
def StatTracker.fresh : StatTracker := ⟨[], 0, 0⟩

/-! ## Key store (crates/basicauth/src/lib.rs) -/

/-- A row of the API-key table.  Timestamps are Unix seconds (the code compares
`DateTime::timestamp()` values). -/
structure KeyEntry where
  pfx : String
  token : String
  createdAt : Int
  expiresAt : Int
  description : Option String
deriving DecidableEq

/-- Result of `AuthManager::check_key`. -/
inductive AuthCheckResult
  | Valid
  | NoPrefixOrKeyFound
  | ExpiredKey
deriving DecidableEq

/-- Seconds in 365 days, the value of `Duration::days(365)` in seconds. -/
def SECONDS_365_DAYS : Int := 365 * 86400

/-- Modelled from the spec: the SQL text of sql/get_by_prefix.sql is pulled in with
include_str and is not part of the source tree; the spec describes validation as a
single row lookup matching both prefix and token, so the query is modelled as the
subsequence of rows whose prefix and token both match. -/
def getByPrefixQuery (db : List KeyEntry) (p k : String) : List KeyEntry :=
  db.filter (fun e => e.pfx == p && e.token == k)

/-- `AuthManager::check_key`: run the lookup, map each row to its expiration time;
if no row, `NoPrefixOrKeyFound`; otherwise pop the last row and compare its
expiration timestamp with the current time. -/
def check_key (db : List KeyEntry) (p k : String) (now : Int) : AuthCheckResult :=
  let res := (getByPrefixQuery db p k).map (fun e => e.expiresAt)
  match res.getLast? with
  | none => AuthCheckResult.NoPrefixOrKeyFound
  | some expirationTime =>
    if expirationTime - now < 0 then AuthCheckResult.ExpiredKey
    else AuthCheckResult.Valid

/-- The sixteen random bytes of a version-4 UUID. -/
structure UuidBytes where
  b0 : Nat
  b1 : Nat
  b2 : Nat
  b3 : Nat
  b4 : Nat
  b5 : Nat
  b6 : Nat
  b7 : Nat
  b8 : Nat
  b9 : Nat
  b10 : Nat
  b11 : Nat
  b12 : Nat
  b13 : Nat
  b14 : Nat
  b15 : Nat

/-- Lower-case hexadecimal digit for a value taken modulo 16. -/
def hexDigitChar (d : Nat) : Char :=
  match d % 16 with
  | 0 => '0' | 1 => '1' | 2 => '2' | 3 => '3'
  | 4 => '4' | 5 => '5' | 6 => '6' | 7 => '7'
  | 8 => '8' | 9 => '9' | 10 => 'a' | 11 => 'b'
  | 12 => 'c' | 13 => 'd' | 14 => 'e' | _ => 'f'

/-- Two hexadecimal digits of one byte. -/
def byteToHexChars (b : Nat) : List Char := [hexDigitChar (b / 16), hexDigitChar b]

/-- `Uuid::to_string`: hyphenated lower-case rendering, groups of 4-2-2-2-6 bytes. -/
def uuidToString (u : UuidBytes) : String :=
  String.mk
    (byteToHexChars u.b0 ++ byteToHexChars u.b1 ++ byteToHexChars u.b2 ++
      byteToHexChars u.b3 ++ ['-'] ++
      byteToHexChars u.b4 ++ byteToHexChars u.b5 ++ ['-'] ++
      byteToHexChars u.b6 ++ byteToHexChars u.b7 ++ ['-'] ++
      byteToHexChars u.b8 ++ byteToHexChars u.b9 ++ ['-'] ++
      byteToHexChars u.b10 ++ byteToHexChars u.b11 ++ byteToHexChars u.b12 ++
      byteToHexChars u.b13 ++ byteToHexChars u.b14 ++ byteToHexChars u.b15)

/-- `AuthManager::generate_api_key`: draw two fresh UUIDs (passed here as the random
bytes), insert the row with `created_at = now` and `expires_at = now + 365 days`
(the insert statement of sql/insert_table.sql is modelled from the spec as an
append), and return `prefix # token`. -/
def generate_api_key (db : List KeyEntry) (pu ku : UuidBytes) (now : Int)
    (desc : Option String) : String × List KeyEntry :=
  let p := uuidToString pu
  let k := uuidToString ku
  let expirationTime := now + SECONDS_365_DAYS
  (p ++ "#" ++ k, db ++ [⟨p, k, now, expirationTime, desc⟩])

/-! ## Session recovery register loop (crates/webreg/src/scraper/tracker.rs,
`login_with_cookies`) -/

/-- `MAX_NUM_REGISTER` from tracker.rs (the spec calls it MAX_REGISTER_ATTEMPTS). -/
def MAX_NUM_REGISTER : Nat := 25

/-- Outcome of the empty-builder advanced search issued for one term during
cookie validation. -/
inductive SearchOutcome
  | err
  | empty
  | nonEmpty
deriving DecidableEq

/-- Environment of one iteration of the register loop: whether
`register_all_terms` succeeded, and the per-term search outcomes in order. -/
structure RegisterIter where
  registerOk : Bool
  searches : List SearchOutcome

/-- The `for term in state.all_terms.keys()` validation loop: a search error
increments the counter and aborts the scan; an empty course list aborts the scan
without incrementing; a non-empty result moves to the next term.  Returns the
counter increment and whether validation succeeded. -/
def checkTerms : List SearchOutcome → Nat × Bool
  | [] => (0, true)
  | SearchOutcome.err :: _ => (1, false)
  | SearchOutcome.empty :: _ => (0, false)
  | SearchOutcome.nonEmpty :: rest => checkTerms rest

/-- One full iteration of the `login_with_cookies` while-loop body: an erroring
`register_all_terms` counts one failure; otherwise the terms are scanned. -/
def processIter (it : RegisterIter) : Nat × Bool :=
  if it.registerOk then checkTerms it.searches else (1, false)

/-- The `while num_tries <= MAX_NUM_REGISTER` loop of `login_with_cookies`,
driven by the environment `env` giving the outcome of each iteration.  `fuel`
bounds how many loop iterations we are willing to unfold: `none` means the loop
was still running after `fuel` iterations; `some b` means the function returned
`b` (the final `num_tries < MAX_NUM_REGISTER` comparison). -/
def loginLoop (env : Nat → RegisterIter) (fuel i t : Nat) : Option Bool :=
  if MAX_NUM_REGISTER < t then some (decide (t < MAX_NUM_REGISTER))
  else
    match fuel with
    | 0 => none
    | fuel' + 1 =>
      let r := processIter (env i)
      if r.2 then some (decide (t < MAX_NUM_REGISTER))
      else loginLoop env fuel' (i + 1) (t + r.1)

/-- An environment in which `register_all_terms` always succeeds and the first
term always reports an empty course list. -/
def envEmptyAll : Nat → RegisterIter := fun _ => ⟨true, [SearchOutcome.empty]⟩

/-- An environment in which `register_all_terms` always errors. -/
def envErrAll : Nat → RegisterIter := fun _ => ⟨false, []⟩

/-! ## Term worker polling loop (crates/webreg/src/scraper/tracker.rs,
`track_webreg_enrollment`)

Time is a global event counter: the stop-flag read at the top of each inner
iteration and every portal call (search or enrollment count) each occupy one
tick.  The global stop flag is raised at instant `stopAt`: an event at tick `n`
sees the flag raised exactly when `stopAt ≤ n`.  The loop-local stop flag of the
other workers is not raised in this single-worker model. -/

/-- `MAX_NUM_SEARCH_REQUESTS` from tracker.rs: the consecutive-failure cap. -/
def MAX_NUM_SEARCH_REQUESTS : Nat := 12

/-- Outcome of one `get_enrollment_count` portal call. -/
inductive PollOutcome
  | err
  | okEmpty
  | okData
deriving DecidableEq

/-- Count a portal call happening at tick `n` towards the tally `a` of calls
issued at or after the instant the stop flag is raised. -/
def countCall (stopAt n a : Nat) : Nat := if stopAt ≤ n then a + 1 else a

/-- The search pass at the top of the outer loop: one `search_courses` portal call
per configured query, issued without consulting the stop flag.  Returns the new
tick and tally. -/
def searchPass (stopAt : Nat) : Nat → Nat → Nat → Nat × Nat
  | 0, n, a => (n, a)
  | q + 1, n, a => searchPass stopAt q (n + 1) (countCall stopAt n a)

/-- The inner `for r in results` loop: read the stop flag (one tick) and break out
of the outer loop if it is raised; break as well past the failure cap; otherwise
issue the `get_enrollment_count` call (one tick) and update `fail_count` from its
outcome.  Returns final tick, tally, `fail_count`, and whether the outer loop was
broken. -/
def innerPoll (stopAt : Nat) : List PollOutcome → Nat → Nat → Nat → Nat × Nat × Nat × Bool
  | [], n, a, fc => (n, a, fc, false)
  | o :: rest, n, a, fc =>
    if stopAt ≤ n then (n + 1, a, fc, true)
    else if fc ≠ 0 ∧ MAX_NUM_SEARCH_REQUESTS < fc then (n + 1, a, fc, true)
    else
      let fc2 := match o with
        | PollOutcome.okData => 0
        | _ => fc + 1
      innerPoll stopAt rest (n + 2) (countCall stopAt (n + 1) a) fc2

/-- The outer loop of `track_webreg_enrollment` for a term with `q` configured
search queries; `env o` lists, for outer iteration `o`, the concatenated search
results as the outcome each section poll will have.  Returns `some a` with the
final tally of portal calls issued at or after the stop instant when the worker
exits, `none` if `fuel` outer iterations did not suffice. -/
def trackLoop (stopAt q : Nat) (env : Nat → List PollOutcome) :
    Nat → Nat → Nat → Nat → Nat → Option Nat
  | 0, _, _, _, _ => none
  | fuel + 1, o, n, a, fc =>
    let sp := searchPass stopAt q n a
    if (env o).isEmpty then some sp.2
    else
      match innerPoll stopAt (env o) sp.1 sp.2 fc with
      | (_, a2, _, true) => some a2
      | (n2, a2, fc2, false) => trackLoop stopAt q env fuel (o + 1) n2 a2 fc2

/-- A run in which every outer iteration finds exactly one section with data. -/
def envPollData : Nat → List PollOutcome := fun _ => [PollOutcome.okData]

/-! ## CSV emission (crates/webreg/src/scraper/tracker.rs) -/

/-- One parsed enrollment-count record as consumed by the CSV writer (the fields
of the wrapper type that the writer reads). -/
structure EnrollmentCountEntry where
  subj_course_id : String
  section_code : String
  section_id : String
  all_instructors : List String
  available_seats : Nat
  waitlist_ct : Nat
  total_seats : Nat
  enrolled_ct : Nat

/-- Decimal digit character of `d % 10`. -/
def digitChar (d : Nat) : Char :=
  match d % 10 with
  | 0 => '0' | 1 => '1' | 2 => '2' | 3 => '3' | 4 => '4'
  | 5 => '5' | 6 => '6' | 7 => '7' | 8 => '8' | _ => '9'

/-- Decimal digit characters of a natural number, most significant first. -/
def natDigits (n : Nat) : List Char :=
  if _h : n < 10 then [digitChar n]
  else natDigits (n / 10) ++ [digitChar (n % 10)]
decreasing_by exact Nat.div_lt_self (by omega) (by omega)

/-- Decimal rendering of a natural number, the `Display` formatting used by the
`writeln!` format string for the numeric columns. -/
def natDec (n : Nat) : String := String.mk (natDigits n)

/-- `str::replace(",", ";")` on every character of a string. -/
def replaceCommas (s : String) : String :=
  String.mk (s.data.map (fun c => if c = ',' then ';' else c))

/-- The `prof` column: `all_instructors.join(" & ").replace(",", ";")`. -/
def profJoin (instructors : List String) : String :=
  replaceCommas (String.intercalate (" & ") instructors)

/-- Join CSV fields with commas, the shape of the row format string
`a,b,c,d,e,f,g,h,i`. -/
def commaJoin : List String → String
  | [] => ""
  | [x] => x
  | x :: xs => x ++ "," ++ commaJoin xs

/-- The list of nine fields written for one section observation. -/
def csvFields (time : Nat) (c : EnrollmentCountEntry) : List String :=
  [natDec time, c.subj_course_id, c.section_code, c.section_id,
    profJoin c.all_instructors, natDec c.available_seats, natDec c.waitlist_ct,
    natDec c.total_seats, natDec c.enrolled_ct]

/-- The CSV row written by the `writeln!` call (without the newline). -/
def csvRow (time : Nat) (c : EnrollmentCountEntry) : String :=
  commaJoin (csvFields time c)

/-- Comma splitter over characters: accumulates the current field (reversed) and
cuts at every comma. -/
def splitCommaChars : List Char → List Char → List (List Char)
  | [], acc => [acc.reverse]
  | c :: cs, acc =>
    if c = ',' then acc.reverse :: splitCommaChars cs []
    else splitCommaChars cs (c :: acc)

/-- Parse a CSV row back into its comma-separated fields. -/
def splitComma (s : String) : List String :=
  (splitCommaChars s.data []).map String.mk

/-! ## Drop-section handler (src/server/endpoints/ww_cookies.rs,
`post_drop_section`) -/

/-- Enrollment status of a schedule entry (the wrapper enum as matched by the
handler; the waitlist variant carries its position payload). -/
inductive EnrollmentStatus
  | Enrolled
  | Waitlist (pos : Int)
  | Planned
  | Unknown
deriving DecidableEq

/-- A schedule entry as read by the handler. -/
structure ScheduleEntry where
  section_id : String
  enrolled_status : EnrollmentStatus
deriving DecidableEq

/-- The add-type passed to the portal drop operation. -/
inductive ExplicitAddType
  | Enroll
  | Waitlist
deriving DecidableEq

/-- Observable outcome of the handler: the schedule fetch failed (portal error
mapped, no drop call), the section was not droppable (404, no drop call), or the
portal drop operation was invoked with the given add-type. -/
inductive DropOutcome
  | scheduleError
  | notEnrolled404
  | dropCalled (t : ExplicitAddType)
deriving DecidableEq

/-- The `filter` closure of `post_drop_section`: only enrolled or waitlisted
sections are droppable. -/
def droppableStatus : EnrollmentStatus → Bool
  | EnrollmentStatus.Enrolled => true
  | EnrollmentStatus.Waitlist _ => true
  | EnrollmentStatus.Planned => false
  | EnrollmentStatus.Unknown => false

/-- `post_drop_section`: fetch the schedule; filter to droppable entries; find the
target section; 404 when absent; otherwise derive the add-type from the status
and invoke drop. -/
def post_drop_section (schedule : Except Unit (List ScheduleEntry))
    (sectionId : String) : DropOutcome :=
  match schedule with
  | Except.error _ => DropOutcome.scheduleError
  | Except.ok o =>
    match (o.filter (fun s => droppableStatus s.enrolled_status)).find?
        (fun d => d.section_id == sectionId) with
    | none => DropOutcome.notEnrolled404
    | some s =>
      match s.enrolled_status with
      | EnrollmentStatus.Enrolled => DropOutcome.dropCalled ExplicitAddType.Enroll
      | EnrollmentStatus.Waitlist _ => DropOutcome.dropCalled ExplicitAddType.Waitlist
      | _ => DropOutcome.notEnrolled404

/-! ## Gateway routing and middleware (src/server/mod.rs, middleware files,
crates/webreg/src/server/endpoints/status.rs) -/

/-- ASCII uppercase of one character, the effect of `str::to_uppercase` on the
term codes at hand. -/
def upperChar (c : Char) : Char := c.toUpper

/-- `str::to_uppercase` over the characters of the path parameter. -/
def toUpperStr (s : String) : String := String.mk (s.data.map upperChar)

/-- The term-validation middleware of term_validator.rs: uppercase the path
parameter and test membership among the registered term codes. -/
def validate_term (terms : List String) (term : String) : Bool :=
  terms.contains (toUpperStr term)

/-- Response of the timing endpoint. -/
inductive TimingResponse
  | snapshot (ttl_requests : Nat) (ttl_time_ms : Nat) (recent : List Nat)
  | notFound
deriving DecidableEq

/-- `get_timing_stats` of status.rs: look the raw path parameter up in
`all_terms` (modelled as an association list); on a hit return the stats
snapshot, otherwise a plain 404.  Per create_router in src/server/mod.rs the
`/timing/:term` route carries no term-validation layer, so this is the whole
behaviour of the route. -/
def get_timing_stats (all_terms : List (String × StatTracker)) (term : String) :
    TimingResponse :=
  match all_terms.lookup term with
  | some t => TimingResponse.snapshot t.num_requests t.total_time_spent t.recent_requests
  | none => TimingResponse.notFound

/-- Body of a gateway response, as far as the health claims observe it. -/
inductive GateBody
  | api (running : Bool)
  | errorMsg (msg : String)
deriving DecidableEq

/-- A gateway response: HTTP status and body. -/
structure GateResponse where
  status : Nat
  body : GateBody
deriving DecidableEq

/-- `get_health` of status.rs: always 200 with the `is_running` flag. -/
def get_health (is_running : Bool) : GateResponse :=
  ⟨200, GateBody.api is_running⟩

/-- `strip_prefix("Bearer ")` on the authorization header value, spelled over the
character list. -/
def stripBearer (h : String) : Option String :=
  if h.data.take 7 = ("Bearer ").data then some (String.mk (h.data.drop 7)) else none

/-- `split_once('#')` over the characters of the credential. -/
def splitOnceHashAux : List Char → List Char → Option (List Char × List Char)
  | [], _ => none
  | c :: cs, acc =>
    if c = '#' then some (acc.reverse, cs) else splitOnceHashAux cs (c :: acc)

/-- `str::split_once('#')`. -/
def splitOnceHash (s : String) : Option (String × String) :=
  (splitOnceHashAux s.data []).map (fun pr => (String.mk pr.1, String.mk pr.2))

/-- The API-key middleware of auth_validator.rs: `none` lets the request through;
`some r` rejects it with `r`.  Error message texts are carried without the
apostrophes of the originals. -/
def authLayer (db : List KeyEntry) (now : Int) (authHeader : Option String) :
    Option GateResponse :=
  match authHeader.bind stripBearer with
  | none => some ⟨401, GateBody.errorMsg ("You did not provide a bearer token.")⟩
  | some token =>
    match splitOnceHash token with
    | none => some ⟨401, GateBody.errorMsg ("Token is in invalid format (missing separator).")⟩
    | some pr =>
      match check_key db pr.1 pr.2 now with
      | AuthCheckResult.Valid => none
      | AuthCheckResult.NoPrefixOrKeyFound =>
        some ⟨401, GateBody.errorMsg ("Token is invalid or the key does not exist.")⟩
      | AuthCheckResult.ExpiredKey => some ⟨401, GateBody.errorMsg ("Token is expired.")⟩

/-- The `/health` route as wired in create_router: it sits outside the readiness,
term and cookie layers, but when the crate is built with the auth feature the
API-key layer wraps the whole router, `/health` included. -/
def healthRoute (authEnabled : Bool) (db : List KeyEntry) (now : Int)
    (authHeader : Option String) (is_running : Bool) : GateResponse :=
  if authEnabled then
    match authLayer db now authHeader with
    | some resp => resp
    | none => get_health is_running
  else get_health is_running

/-! ## Login-script stats endpoint (crates/webreg/src/server/endpoints/status.rs,
`get_login_script_stats`) -/

/-- Outcome of the outbound request to the cookie server: transport error,
body-read error, or a body text. -/
inductive FetchResult
  | sendErr
  | textErr
  | textOk (body : String)

/-- Observable response of the login-stat endpoint: HTTP status, whether the body
is an error object, and whether a request to the cookie server was issued. -/
structure LoginStatResult where
  status : Nat
  isError : Bool
  calledServer : Bool
deriving DecidableEq

/-- The fallback body used when reading the response text fails. -/
def fallbackText (stat : String) : String :=
  if stat = "start" then "0"
  else if stat = "history" then "[]"
  else "\x7b\x7d"

/-- `get_login_script_stats`: any path parameter other than `start` or `history`
is rejected with 400 before any outbound request; otherwise the cookie server is
contacted and its body (or the fallback) is parsed as JSON (`jsonOk` abstracts
the parser), yielding 200 or 500. -/
def get_login_script_stats (stat : String) (fetch : FetchResult)
    (jsonOk : String → Bool) : LoginStatResult :=
  if stat ≠ "start" ∧ stat ≠ "history" then ⟨400, true, false⟩
  else
    match fetch with
    | FetchResult.sendErr => ⟨500, true, true⟩
    | FetchResult.textErr =>
      if jsonOk (fallbackText stat) then ⟨200, false, true⟩ else ⟨500, true, true⟩
    | FetchResult.textOk body =>
      if jsonOk body then ⟨200, false, true⟩ else ⟨500, true, true⟩

/-! ## Theorems -/

/-- Helper: a UUID rendering always has exactly 36 characters. -/
theorem uuidToString_length (u : UuidBytes) : (uuidToString u).length = 36 := by
  simp [uuidToString, byteToHexChars, String.length]

/-- Claim C5: issuing a key returns the two fresh 36-character identifiers joined
by a hash sign, stores a row whose expiration is 365 days past its creation, and
validating that prefix and token immediately afterwards yields Valid. -/
theorem c5_issue_then_validate (db : List KeyEntry) (pu ku : UuidBytes) (now : Int)
    (desc : Option String) :
    (generate_api_key db pu ku now desc).1 = uuidToString pu ++ "#" ++ uuidToString ku ∧
    (uuidToString pu).length = 36 ∧
    (uuidToString ku).length = 36 ∧
    (∃ row, (generate_api_key db pu ku now desc).2 = db ++ [row] ∧
      row.pfx = uuidToString pu ∧ row.token = uuidToString ku ∧
      row.createdAt = now ∧ row.expiresAt = row.createdAt + SECONDS_365_DAYS ∧
      row.description = desc) ∧
    check_key (generate_api_key db pu ku now desc).2 (uuidToString pu) (uuidToString ku) now
      = AuthCheckResult.Valid := by
  refine ⟨rfl, uuidToString_length pu, uuidToString_length ku, ⟨_, rfl, rfl, rfl, rfl, rfl, rfl⟩, ?_⟩
  have hq : getByPrefixQuery (generate_api_key db pu ku now desc).2
      (uuidToString pu) (uuidToString ku)
      = getByPrefixQuery db (uuidToString pu) (uuidToString ku) ++
        [⟨uuidToString pu, uuidToString ku, now, now + SECONDS_365_DAYS, desc⟩] := by
    simp [generate_api_key, getByPrefixQuery, List.filter_append]
  simp only [check_key, hq, List.map_append, List.map_cons, List.map_nil,
    List.getLast?_concat]
  have h365 : ¬ now + SECONDS_365_DAYS - now < 0 := by
    have hval : SECONDS_365_DAYS = 31536000 := rfl
    omega
  rw [if_neg h365]

/-- Claim C4: a prefix presented with a non-matching token is reported as
NoPrefixOrKeyFound, the same observable result as a prefix that has no row at
all. -/
theorem c4_wrong_token_indistinguishable (db : List KeyEntry) (p k : String) (now : Int)
    (h : ∀ e ∈ db, e.pfx = p → e.token ≠ k) :
    check_key db p k now = AuthCheckResult.NoPrefixOrKeyFound ∧
    ∀ db2 : List KeyEntry, (∀ e ∈ db2, e.pfx ≠ p) →
      check_key db p k now = check_key db2 p k now := by
  have hq : getByPrefixQuery db p k = [] := by
    refine List.filter_eq_nil_iff.mpr ?_
    intro e he hmatch
    simp only [Bool.and_eq_true, beq_iff_eq] at hmatch
    exact h e he hmatch.1 hmatch.2
  refine ⟨by simp [check_key, hq], ?_⟩
  intro db2 h2
  have hq2 : getByPrefixQuery db2 p k = [] := by
    refine List.filter_eq_nil_iff.mpr ?_
    intro e he hmatch
    simp only [Bool.and_eq_true, beq_iff_eq] at hmatch
    exact h2 e he hmatch.1
  simp [check_key, hq, hq2]

/-- Witness for C4 at a concrete store: a wrong token for an existing prefix is
indistinguishable from an unknown prefix. -/
theorem c4_wrong_token_indistinguishable_witness :
    check_key [⟨"p1", "t1", 0, 10, none⟩] ("p1") ("t2") 0
      = AuthCheckResult.NoPrefixOrKeyFound ∧
    check_key [⟨"p1", "t1", 0, 10, none⟩] ("p1") ("t2") 0 = check_key [] ("p1") ("t2") 0 := by
  have h := c4_wrong_token_indistinguishable [⟨"p1", "t1", 0, 10, none⟩] ("p1") ("t2") 0
    (by decide)
  exact ⟨h.1, h.2 [] (by decide)⟩

/-- Claim C6: the drop handler fetches the schedule first; a target section that
is absent or not enrolled/waitlisted yields a 404 with no drop call; an enrolled
or waitlisted target yields a drop call with the matching add-type; a schedule
fetch error never reaches the drop call. -/
theorem c6_drop_section_guard (sched : List ScheduleEntry) (sid : String) :
    ((∀ e ∈ sched, e.section_id = sid → droppableStatus e.enrolled_status = false) →
      post_drop_section (Except.ok sched) sid = DropOutcome.notEnrolled404) ∧
    (∀ e, (sched.filter (fun s => droppableStatus s.enrolled_status)).find?
        (fun d => d.section_id == sid) = some e →
      (e.enrolled_status = EnrollmentStatus.Enrolled →
        post_drop_section (Except.ok sched) sid = DropOutcome.dropCalled ExplicitAddType.Enroll) ∧
      (∀ pos, e.enrolled_status = EnrollmentStatus.Waitlist pos →
        post_drop_section (Except.ok sched) sid = DropOutcome.dropCalled ExplicitAddType.Waitlist)) ∧
    (∀ err : Unit, post_drop_section (Except.error err) sid = DropOutcome.scheduleError) := by
  refine ⟨?_, ?_, fun _ => rfl⟩
  · intro h
    have hfind : (sched.filter (fun s => droppableStatus s.enrolled_status)).find?
        (fun d => d.section_id == sid) = none := by
      refine List.find?_eq_none.mpr ?_
      intro x hx
      rcases List.mem_filter.mp hx with ⟨hmem, hdrop⟩
      simp only [beq_iff_eq]
      intro hid
      rw [h x hmem hid] at hdrop
      exact Bool.false_ne_true hdrop
    simp [post_drop_section, hfind]
  · intro e hfind
    constructor
    · intro hst
      simp [post_drop_section, hfind, hst]
    · intro pos hst
      simp [post_drop_section, hfind, hst]

/-- Witness for C6 at concrete schedules: a Planned section gives a 404 without a
drop call; an Enrolled section gives a drop call with the Enroll add-type. -/
theorem c6_drop_section_guard_witness :
    post_drop_section (Except.ok [⟨"079911", EnrollmentStatus.Planned⟩]) ("079911")
      = DropOutcome.notEnrolled404 ∧
    post_drop_section (Except.ok [⟨"079911", EnrollmentStatus.Enrolled⟩]) ("079911")
      = DropOutcome.dropCalled ExplicitAddType.Enroll := by
  refine ⟨(c6_drop_section_guard [⟨"079911", EnrollmentStatus.Planned⟩] ("079911")).1
    (by decide), ?_⟩
  exact ((c6_drop_section_guard [⟨"079911", EnrollmentStatus.Enrolled⟩] ("079911")).2.1
    ⟨"079911", EnrollmentStatus.Enrolled⟩ (by decide)).1 rfl

/-- Counterexample to claim C8: with FA22 registered, the term middleware accepts
the lower-case parameter, yet GET /timing/fa22 returns 404, not the snapshot,
because create_router wires /timing/:term without the term layer and the handler
looks the raw parameter up case-sensitively. -/
theorem c8_counterexample :
    validate_term ["FA22"] ("fa22") = true ∧
    get_timing_stats [("FA22", StatTracker.fresh)] ("fa22") = TimingResponse.notFound := by
  decide

/-- Claim C8 as amended: the term middleware is case-insensitive (it uppercases
the parameter before the lookup), but the timing route has no term layer and its
handler matches the raw parameter exactly: the snapshot is returned only on an
exact-case hit and 404 otherwise. -/
theorem c8_term_case (terms : List String) (t : String)
    (tm : List (String × StatTracker)) (st : StatTracker) :
    (terms.contains (toUpperStr t) = true → validate_term terms t = true) ∧
    (validate_term terms t = true → terms.contains (toUpperStr t) = true) ∧
    (tm.lookup t = some st →
      get_timing_stats tm t
        = TimingResponse.snapshot st.num_requests st.total_time_spent st.recent_requests) ∧
    (tm.lookup t = none → get_timing_stats tm t = TimingResponse.notFound) := by
  refine ⟨fun h => h, fun h => h, ?_, ?_⟩
  · intro h
    simp [get_timing_stats, h]
  · intro h
    simp [get_timing_stats, h]

/-- Witness for C8 at a concrete registry: the middleware accepts the lower-case
spelling, and the timing handler snapshots only the exact-case spelling. -/
theorem c8_term_case_witness :
    validate_term ["FA22"] ("Fa22") = true ∧
    get_timing_stats [("FA22", StatTracker.fresh)] ("FA22") = TimingResponse.snapshot 0 0 [] := by
  refine ⟨(c8_term_case ["FA22"] ("Fa22") [] StatTracker.fresh).1 (by decide), ?_⟩
  exact (c8_term_case ["FA22"] ("FA22") [("FA22", StatTracker.fresh)] StatTracker.fresh).2.2.1
    (by decide)

/-- Counterexample to claim C9: in an auth-enabled build the API-key layer wraps
the whole router, /health included, so an unauthenticated health probe is
rejected with 401 instead of the 200 readiness body. -/
theorem c9_counterexample :
    healthRoute true [] 0 none true ≠ ⟨200, GateBody.api true⟩ ∧
    healthRoute true [] 0 none true
      = ⟨401, GateBody.errorMsg ("You did not provide a bearer token.")⟩ := by
  decide

/-- Claim C9 as amended: /health carries no readiness, term or cookie layer and
answers 200 with the is_running flag in every state; but when the auth feature is
compiled in, the process-wide API-key layer also covers /health, and its
rejection is returned unchanged. -/
theorem c9_health_route (running : Bool) (db : List KeyEntry) (now : Int)
    (hdr : Option String) :
    (healthRoute false db now hdr running = ⟨200, GateBody.api running⟩) ∧
    (authLayer db now hdr = none →
      healthRoute true db now hdr running = ⟨200, GateBody.api running⟩) ∧
    (∀ resp, authLayer db now hdr = some resp →
      healthRoute true db now hdr running = resp) := by
  refine ⟨rfl, ?_, ?_⟩
  · intro h
    simp [healthRoute, h, get_health]
  · intro resp h
    simp [healthRoute, h]

/-- Witness for C9: with a valid key the auth-enabled health route still reports
the running flag (even when the tracker is idle, showing the absence of a
readiness layer). -/
theorem c9_health_route_witness :
    healthRoute true [⟨"p", "t", 0, 10, none⟩] 0 (some ("Bearer p#t")) false
      = ⟨200, GateBody.api false⟩ := by
  exact (c9_health_route false [⟨"p", "t", 0, 10, none⟩] 0 (some ("Bearer p#t"))).2.1
    (by decide)

/-- Claim C10: any /login_stat path parameter other than start or history is
answered with a 400 error body and no outbound request to the cookie server. -/
theorem c10_login_stat_reject (stat : String) (fetch : FetchResult)
    (jsonOk : String → Bool) (h1 : stat ≠ "start") (h2 : stat ≠ "history") :
    get_login_script_stats stat fetch jsonOk = ⟨400, true, false⟩ := by
  simp [get_login_script_stats, h1, h2]

/-- Witness for C10 at a concrete parameter. -/
theorem c10_login_stat_reject_witness :
    get_login_script_stats ("cookie") FetchResult.sendErr (fun _ => true)
      = ⟨400, true, false⟩ := by
  exact c10_login_stat_reject ("cookie") FetchResult.sendErr (fun _ => true)
    (by decide) (by decide)

/-- Helper for C1: once every failing iteration increments the counter, the
register loop returns within the remaining fuel. -/
theorem loginLoop_terminates (env : Nat → RegisterIter)
    (h : ∀ i, (processIter (env i)).2 = false → (processIter (env i)).1 = 1) :
    ∀ fuel i t, MAX_NUM_REGISTER < t + fuel → ∃ b, loginLoop env fuel i t = some b := by
  intro fuel
  induction fuel with
  | zero =>
    intro i t ht
    refine ⟨decide (t < MAX_NUM_REGISTER), ?_⟩
    rw [loginLoop]
    simp [show MAX_NUM_REGISTER < t by omega]
  | succ fuel ih =>
    intro i t ht
    by_cases hmt : MAX_NUM_REGISTER < t
    · refine ⟨decide (t < MAX_NUM_REGISTER), ?_⟩
      rw [loginLoop]
      simp [hmt]
    · rcases hr2 : (processIter (env i)).2 with _ | _
      · have hinc := h i hr2
        have hrec := ih (i + 1) (t + 1) (by omega)
        rcases hrec with ⟨b, hb⟩
        refine ⟨b, ?_⟩
        rw [loginLoop]
        simp only [if_neg hmt]
        simp only [hr2, Bool.false_eq_true, if_false, hinc]
        exact hb
      · refine ⟨decide (t < MAX_NUM_REGISTER), ?_⟩
        rw [loginLoop]
        simp [if_neg hmt, hr2]

/-- Counterexample to claim C1: an iteration in which `register_all_terms`
succeeds but a term reports an empty course list is not counted against
`num_tries`, and with such outcomes forever the register loop is still running
after MAX_NUM_REGISTER + 1 iterations. -/
theorem c1_counterexample :
    processIter (envEmptyAll 0) = (0, false) ∧
    loginLoop envEmptyAll (MAX_NUM_REGISTER + 1) 0 0 = none := by
  decide

/-- Claim C1 as amended: a failing `register_all_terms` and a failing per-term
search are each counted against the attempt counter, but an empty course list is
not; consequently the register loop performs at most MAX_NUM_REGISTER + 1
iterations before returning in every execution in which each failing iteration
fails with an error. -/
theorem c1_register_counting :
    (∀ ss : List SearchOutcome, processIter ⟨false, ss⟩ = (1, false)) ∧
    (∀ pre post, (∀ x ∈ pre, x = SearchOutcome.nonEmpty) →
      checkTerms (pre ++ SearchOutcome.err :: post) = (1, false)) ∧
    (∀ pre post, (∀ x ∈ pre, x = SearchOutcome.nonEmpty) →
      checkTerms (pre ++ SearchOutcome.empty :: post) = (0, false)) ∧
    (∀ env : Nat → RegisterIter,
      (∀ i, (processIter (env i)).2 = false → (processIter (env i)).1 = 1) →
      ∃ b, loginLoop env (MAX_NUM_REGISTER + 1) 0 0 = some b) := by
  refine ⟨fun ss => rfl, ?_, ?_, ?_⟩
  · intro pre post hpre
    induction pre with
    | nil => rfl
    | cons x pre ih =>
      rw [hpre x (by simp)]
      simp only [List.cons_append]
      rw [show checkTerms (SearchOutcome.nonEmpty :: (pre ++ SearchOutcome.err :: post))
          = checkTerms (pre ++ SearchOutcome.err :: post) from rfl]
      exact ih (fun y hy => hpre y (by simp [hy]))
  · intro pre post hpre
    induction pre with
    | nil => rfl
    | cons x pre ih =>
      rw [hpre x (by simp)]
      simp only [List.cons_append]
      rw [show checkTerms (SearchOutcome.nonEmpty :: (pre ++ SearchOutcome.empty :: post))
          = checkTerms (pre ++ SearchOutcome.empty :: post) from rfl]
      exact ih (fun y hy => hpre y (by simp [hy]))
  · intro env h
    exact loginLoop_terminates env h (MAX_NUM_REGISTER + 1) 0 0 (by omega)

/-- Witness for C1 at concrete environments: an error after a non-empty term is
counted, and with always-erroring registrations the loop returns within the
attempt bound. -/
theorem c1_register_counting_witness :
    checkTerms [SearchOutcome.nonEmpty, SearchOutcome.err] = (1, false) ∧
    (∃ b, loginLoop envErrAll (MAX_NUM_REGISTER + 1) 0 0 = some b) := by
  constructor
  · exact c1_register_counting.2.1 [SearchOutcome.nonEmpty] [] (by decide)
  · exact c1_register_counting.2.2.2 envErrAll (fun i _ => rfl)

/-- Helper for C2: the search pass advances the event clock by one tick per
configured query. -/
theorem searchPass_fst (stopAt : Nat) : ∀ q n a, (searchPass stopAt q n a).1 = n + q := by
  intro q
  induction q with
  | zero => intro n a; simp [searchPass]
  | succ q ih =>
    intro n a
    rw [show searchPass stopAt (q + 1) n a
        = searchPass stopAt q (n + 1) (countCall stopAt n a) from rfl, ih]
    omega

/-- Helper for C2: the search pass issues at most one portal call per query, so
the tally grows by at most the query count. -/
theorem searchPass_snd_le (stopAt : Nat) : ∀ q n a, (searchPass stopAt q n a).2 ≤ a + q := by
  intro q
  induction q with
  | zero => intro n a; simp [searchPass]
  | succ q ih =>
    intro n a
    rw [show searchPass stopAt (q + 1) n a
        = searchPass stopAt q (n + 1) (countCall stopAt n a) from rfl]
    have hcc : countCall stopAt n a ≤ a + 1 := by unfold countCall; split <;> omega
    have := ih (n + 1) (countCall stopAt n a)
    omega

/-- Helper for C2: a search pass that finishes before the stop instant counts no
calls. -/
theorem searchPass_snd_before (stopAt : Nat) :
    ∀ q n a, n + q ≤ stopAt → (searchPass stopAt q n a).2 = a := by
  intro q
  induction q with
  | zero => intro n a _; simp [searchPass]
  | succ q ih =>
    intro n a h
    rw [show searchPass stopAt (q + 1) n a
        = searchPass stopAt q (n + 1) (countCall stopAt n a) from rfl]
    rw [show countCall stopAt n a = a from by unfold countCall; rw [if_neg (by omega)]]
    exact ih (n + 1) a (by omega)

/-- Helper for C2: once the stop flag is already raised, the very first flag read
of the inner loop breaks out without issuing a call. -/
theorem innerPoll_stopped (stopAt : Nat) (o : PollOutcome) (rest : List PollOutcome)
    (n a fc : Nat) (h : stopAt ≤ n) :
    innerPoll stopAt (o :: rest) n a fc = (n + 1, a, fc, true) := by
  simp [innerPoll, h]

/-- Helper for C2: through the inner loop, if the state either lies before the
stop instant with no counted calls or one tick past it with at most one, then at
most one call is ever counted, and on a normal exit the same invariant holds. -/
theorem innerPoll_inv (stopAt : Nat) (res : List PollOutcome) :
    ∀ n a fc, ((n ≤ stopAt ∧ a = 0) ∨ (n = stopAt + 1 ∧ a ≤ 1)) →
      (innerPoll stopAt res n a fc).2.1 ≤ 1 ∧
      ((innerPoll stopAt res n a fc).2.2.2 = false →
        ((innerPoll stopAt res n a fc).1 ≤ stopAt ∧ (innerPoll stopAt res n a fc).2.1 = 0) ∨
        ((innerPoll stopAt res n a fc).1 = stopAt + 1 ∧ (innerPoll stopAt res n a fc).2.1 ≤ 1)) := by
  induction res with
  | nil =>
    intro n a fc hP
    constructor
    · rcases hP with ⟨_, h0⟩ | ⟨_, h1⟩ <;> simp [innerPoll] <;> omega
    · intro _
      simpa [innerPoll] using hP
  | cons o rest ih =>
    intro n a fc hP
    by_cases hstop : stopAt ≤ n
    · rw [innerPoll_stopped stopAt o rest n a fc hstop]
      refine ⟨?_, by simp⟩
      rcases hP with ⟨_, h0⟩ | ⟨_, h1⟩ <;> simp <;> omega
    · by_cases hfc : fc ≠ 0 ∧ MAX_NUM_SEARCH_REQUESTS < fc
      · rw [show innerPoll stopAt (o :: rest) n a fc = (n + 1, a, fc, true) from by
          simp [innerPoll, hstop, hfc]]
        refine ⟨?_, by simp⟩
        rcases hP with ⟨_, h0⟩ | ⟨_, h1⟩ <;> simp <;> omega
      · have hinv : (n + 2 ≤ stopAt ∧ countCall stopAt (n + 1) a = 0) ∨
            (n + 2 = stopAt + 1 ∧ countCall stopAt (n + 1) a ≤ 1) := by
          rcases hP with ⟨hn, ha⟩ | ⟨hn, ha⟩
          · by_cases h1 : stopAt ≤ n + 1
            · right; unfold countCall; rw [if_pos h1]; omega
            · left; unfold countCall; rw [if_neg h1]; omega
          · omega
        cases o with
        | okData =>
          rw [show innerPoll stopAt (PollOutcome.okData :: rest) n a fc
              = innerPoll stopAt rest (n + 2) (countCall stopAt (n + 1) a) 0 from by
            simp [innerPoll, hstop, hfc]]
          exact ih (n + 2) (countCall stopAt (n + 1) a) 0 hinv
        | err =>
          rw [show innerPoll stopAt (PollOutcome.err :: rest) n a fc
              = innerPoll stopAt rest (n + 2) (countCall stopAt (n + 1) a) (fc + 1) from by
            simp [innerPoll, hstop, hfc]]
          exact ih (n + 2) (countCall stopAt (n + 1) a) (fc + 1) hinv
        | okEmpty =>
          rw [show innerPoll stopAt (PollOutcome.okEmpty :: rest) n a fc
              = innerPoll stopAt rest (n + 2) (countCall stopAt (n + 1) a) (fc + 1) from by
            simp [innerPoll, hstop, hfc]]
          exact ih (n + 2) (countCall stopAt (n + 1) a) (fc + 1) hinv

/-- Helper for C2: across the whole worker loop, starting from a state satisfying
the stop invariant, the number of portal calls issued at or after the stop
instant never exceeds the query count plus one. -/
theorem trackLoop_calls_after (stopAt q : Nat) (env : Nat → List PollOutcome) :
    ∀ fuel o n a fc A, ((n ≤ stopAt ∧ a = 0) ∨ (n = stopAt + 1 ∧ a ≤ 1)) →
      trackLoop stopAt q env fuel o n a fc = some A → A ≤ q + 1 := by
  intro fuel
  induction fuel with
  | zero =>
    intro o n a fc A _ h
    simp [trackLoop] at h
  | succ fuel ih =>
    intro o n a fc A hP h
    rw [show trackLoop stopAt q env (fuel + 1) o n a fc
        = (if (env o).isEmpty then some (searchPass stopAt q n a).2
          else
            match innerPoll stopAt (env o) (searchPass stopAt q n a).1
                (searchPass stopAt q n a).2 fc with
            | (_, a2, _, true) => some a2
            | (n2, a2, fc2, false) => trackLoop stopAt q env fuel (o + 1) n2 a2 fc2) from rfl]
      at h
    have hsp1 : (searchPass stopAt q n a).1 = n + q := searchPass_fst stopAt q n a
    have hsple : (searchPass stopAt q n a).2 ≤ a + q := searchPass_snd_le stopAt q n a
    have ha1 : a ≤ 1 := by rcases hP with ⟨_, h0⟩ | ⟨_, h1⟩ <;> omega
    by_cases hemp : (env o).isEmpty = true
    · rw [if_pos hemp] at h
      have := Option.some.inj h
      omega
    · rw [if_neg hemp] at h
      obtain ⟨e, es, henv⟩ : ∃ e es, env o = e :: es := by
        rcases hc : env o with _ | ⟨e, es⟩
        · rw [hc] at hemp; exact absurd rfl hemp
        · exact ⟨e, es, rfl⟩
      rcases h' : innerPoll stopAt (env o) (searchPass stopAt q n a).1
          (searchPass stopAt q n a).2 fc with ⟨n2, a2, fc2, ex⟩
      rw [h'] at h
      by_cases hn1 : stopAt ≤ n + q
      · -- the first flag read of the inner loop exits immediately
        rw [henv, innerPoll_stopped stopAt e es _ _ fc (by omega)] at h'
        simp only [Prod.mk.injEq] at h'
        obtain ⟨hx1, hx2, hx3, hx4⟩ := h'
        subst hx4
        have := Option.some.inj h
        omega
      · -- the search pass ends before the stop instant
        have hinv : ((searchPass stopAt q n a).1 ≤ stopAt ∧ (searchPass stopAt q n a).2 = 0) ∨
            ((searchPass stopAt q n a).1 = stopAt + 1 ∧ (searchPass stopAt q n a).2 ≤ 1) := by
          rcases hP with ⟨hn, ha⟩ | ⟨hn, ha⟩
          · left
            refine ⟨by omega, ?_⟩
            rw [searchPass_snd_before stopAt q n a (by omega)]
            exact ha
          · omega
        have hrec := innerPoll_inv stopAt (env o) (searchPass stopAt q n a).1
          (searchPass stopAt q n a).2 fc hinv
        rw [h'] at hrec
        rcases ex with _ | _
        · -- normal exit of the inner loop: recurse with the preserved invariant
          exact ih (o + 1) n2 a2 fc2 A (hrec.2 rfl) h
        · -- the inner loop broke out: the tally is at most one
          have ha2 : a2 ≤ 1 := hrec.1
          have := Option.some.inj h
          omega

/-- Counterexample to claim C2: with two configured search queries and the stop
flag raised at tick 3 (just after the only enrollment-count call of the first
pass), the worker still issues the enrollment-count call plus the two unguarded
search calls of the next pass, three portal calls at or after the stop instant,
and three is not at most one. -/
theorem c2_counterexample :
    trackLoop 3 2 envPollData 3 0 0 0 0 = some 3 ∧ ¬ (3 ≤ 1) := by
  decide

/-- Claim C2 as amended: once the stop flag is raised, a term worker issues at
most `q + 1` further portal calls, where `q` is the number of configured search
queries for the term: at most one flag-guarded enrollment-count call, plus at
most one full unguarded search pass, before the next flag read exits the loop. -/
theorem c2_stop_flag_bound (stopAt q : Nat) (env : Nat → List PollOutcome)
    (fuel A : Nat) (h : trackLoop stopAt q env fuel 0 0 0 0 = some A) : A ≤ q + 1 :=
  trackLoop_calls_after stopAt q env fuel 0 0 0 0 A (Or.inl ⟨Nat.zero_le _, rfl⟩) h

/-- Witness for C2: the counterexample run attains the amended bound exactly. -/
theorem c2_stop_flag_bound_witness :
    trackLoop 3 2 envPollData 3 0 0 0 0 = some 3 ∧ 3 ≤ 2 + 1 :=
  ⟨by decide, c2_stop_flag_bound 3 2 envPollData 3 3 (by decide)⟩

/-- Helper for C3: eviction does nothing below capacity. -/
theorem evictFront_of_lt (q : List Nat) (h : q.length < MAX_RECENT_REQUESTS) :
    evictFront q = q := by
  unfold evictFront
  rw [if_neg (by omega)]

/-- Helper for C3: at exactly full capacity, eviction drops one element from the
front. -/
theorem evictFront_of_eq (q : List Nat) (h : q.length = MAX_RECENT_REQUESTS) :
    evictFront q = q.tail := by
  cases q with
  | nil => simp [MAX_RECENT_REQUESTS] at h
  | cons x t =>
    unfold evictFront
    have hlen : t.length + 1 = MAX_RECENT_REQUESTS := by simpa using h
    rw [if_pos (by simp; omega)]
    show evictFront t = t
    exact evictFront_of_lt t (by omega)

/-- Helper for C3: eviction always leaves the queue strictly below capacity. -/
theorem evictFront_length_lt (q : List Nat) :
    (evictFront q).length < MAX_RECENT_REQUESTS := by
  induction q with
  | nil =>
    unfold evictFront
    simp [MAX_RECENT_REQUESTS]
  | cons x t ih =>
    by_cases h : MAX_RECENT_REQUESTS ≤ (x :: t).length
    · unfold evictFront
      rw [if_pos h]
      show (evictFront t).length < MAX_RECENT_REQUESTS
      exact ih
    · rw [evictFront_of_lt _ (by omega)]
      omega

/-- Helper for C3: below-capacity states evolve under one record exactly like a
sliding window over the sample stream. -/
theorem add_stat_recent (t : StatTracker) (x : Nat)
    (h : t.recent_requests.length ≤ MAX_RECENT_REQUESTS) :
    (t.add_stat x).recent_requests
      = (t.recent_requests ++ [x]).drop
          (t.recent_requests.length + 1 - MAX_RECENT_REQUESTS) := by
  have hM : MAX_RECENT_REQUESTS = 2000 := rfl
  by_cases hlt : t.recent_requests.length < MAX_RECENT_REQUESTS
  · rw [show (t.add_stat x).recent_requests
        = evictFront t.recent_requests ++ [x] from rfl, evictFront_of_lt _ hlt]
    rw [show t.recent_requests.length + 1 - MAX_RECENT_REQUESTS = 0 from by omega,
      List.drop_zero]
  · have heq : t.recent_requests.length = MAX_RECENT_REQUESTS := by omega
    rw [show (t.add_stat x).recent_requests
        = evictFront t.recent_requests ++ [x] from rfl, evictFront_of_eq _ heq]
    rw [show t.recent_requests.length + 1 - MAX_RECENT_REQUESTS = 1 from by omega]
    rw [List.drop_append_of_le_length (by omega), List.drop_one]

/-- Helper for C3: the request counter counts records. -/
theorem foldl_add_stat_num (xs : List Nat) : ∀ t : StatTracker,
    (xs.foldl StatTracker.add_stat t).num_requests = t.num_requests + xs.length := by
  induction xs with
  | nil => intro t; simp
  | cons x xs ih =>
    intro t
    rw [List.foldl_cons, ih]
    simp [StatTracker.add_stat]
    omega

/-- Helper for C3: the time counter accumulates samples. -/
theorem foldl_add_stat_total (xs : List Nat) : ∀ t : StatTracker,
    (xs.foldl StatTracker.add_stat t).total_time_spent
      = t.total_time_spent + xs.sum := by
  induction xs with
  | nil => intro t; simp
  | cons x xs ih =>
    intro t
    rw [List.foldl_cons, ih]
    simp [StatTracker.add_stat]
    omega

/-- Helper for C3: through any run, the queue is the capacity-bounded suffix of
all samples recorded so far. -/
theorem foldl_add_stat_recent (xs : List Nat) : ∀ (acc : List Nat) (t : StatTracker),
    t.recent_requests = acc.drop (acc.length - MAX_RECENT_REQUESTS) →
    (xs.foldl StatTracker.add_stat t).recent_requests
      = (acc ++ xs).drop ((acc ++ xs).length - MAX_RECENT_REQUESTS) := by
  induction xs with
  | nil => intro acc t h; simpa using h
  | cons x xs ih =>
    intro acc t h
    rw [List.foldl_cons]
    have hlen : t.recent_requests.length ≤ MAX_RECENT_REQUESTS := by
      rw [h, List.length_drop]
      omega
    have hrec : (StatTracker.add_stat t x).recent_requests
        = (acc ++ [x]).drop ((acc ++ [x]).length - MAX_RECENT_REQUESTS) := by
      have hM : MAX_RECENT_REQUESTS = 2000 := rfl
      rw [add_stat_recent t x hlen, h, List.length_drop]
      by_cases hL : acc.length < MAX_RECENT_REQUESTS
      · rw [show acc.length - MAX_RECENT_REQUESTS = 0 from by omega]
        simp only [List.drop_zero]
        rw [show acc.length - 0 + 1 - MAX_RECENT_REQUESTS = 0 from by omega]
        rw [show (acc ++ [x]).length - MAX_RECENT_REQUESTS = 0 from by simp; omega]
      · rw [show acc.length - (acc.length - MAX_RECENT_REQUESTS) + 1 - MAX_RECENT_REQUESTS
            = 1 from by omega]
        rw [show (acc ++ [x]).length - MAX_RECENT_REQUESTS
            = acc.length - MAX_RECENT_REQUESTS + 1 from by simp; omega]
        rw [List.drop_append_of_le_length (by
          rw [List.length_drop]
          omega)]
        rw [List.drop_drop]
        rw [List.drop_append_of_le_length (by omega)]
    have := ih (acc ++ [x]) (StatTracker.add_stat t x) hrec
    simpa [List.append_assoc] using this

/-- Claim C3: after recording the samples `xs` on a fresh tracker, the request
counter equals the sample count, the time counter equals their sum, and the
recent queue is exactly the last `min (N, MAX_RECENT_REQUESTS)` samples in
insertion order; moreover every single record call leaves the queue within the
capacity bound, evicting from the front when full. -/
theorem c3_stat_tracker (xs : List Nat) :
    (xs.foldl StatTracker.add_stat StatTracker.fresh).num_requests = xs.length ∧
    (xs.foldl StatTracker.add_stat StatTracker.fresh).total_time_spent = xs.sum ∧
    (xs.foldl StatTracker.add_stat StatTracker.fresh).recent_requests
      = xs.drop (xs.length - MAX_RECENT_REQUESTS) ∧
    (xs.foldl StatTracker.add_stat StatTracker.fresh).recent_requests.length
      = min xs.length MAX_RECENT_REQUESTS ∧
    (∀ (t : StatTracker) (x : Nat),
      (t.add_stat x).recent_requests.length ≤ MAX_RECENT_REQUESTS) := by
  have hrec := foldl_add_stat_recent xs [] StatTracker.fresh (by simp [StatTracker.fresh])
  simp only [List.nil_append] at hrec
  refine ⟨?_, ?_, hrec, ?_, ?_⟩
  · simpa [StatTracker.fresh] using foldl_add_stat_num xs StatTracker.fresh
  · simpa [StatTracker.fresh] using foldl_add_stat_total xs StatTracker.fresh
  · rw [hrec, List.length_drop]
    omega
  · intro t x
    have h1 := evictFront_length_lt t.recent_requests
    show (evictFront t.recent_requests ++ [x]).length ≤ MAX_RECENT_REQUESTS
    rw [List.length_append]
    simp
    omega

/-- Helper for C7: a decimal digit is never a comma. -/
theorem digitChar_ne_comma (d : Nat) : digitChar d ≠ ',' := by
  unfold digitChar
  split <;> decide

/-- Helper for C7: decimal renderings contain no comma. -/
theorem natDigits_ne_comma (n : Nat) : ∀ c ∈ natDigits n, c ≠ ',' := by
  induction n using Nat.strong_induction_on with
  | _ n ih =>
    intro c hc
    unfold natDigits at hc
    by_cases h : n < 10
    · rw [dif_pos h] at hc
      simp only [List.mem_singleton] at hc
      rw [hc]
      exact digitChar_ne_comma n
    · rw [dif_neg h] at hc
      rcases List.mem_append.mp hc with h1 | h2
      · exact ih (n / 10) (Nat.div_lt_self (by omega) (by omega)) c h1
      · simp only [List.mem_singleton] at h2
        rw [h2]
        exact digitChar_ne_comma (n % 10)

/-- Helper for C7: the rendered numeric field contains no comma. -/
theorem natDec_ne_comma (n : Nat) : ∀ c ∈ (natDec n).data, c ≠ ',' :=
  fun c hc => natDigits_ne_comma n c hc

/-- Helper for C7: comma replacement leaves no comma behind. -/
theorem replaceCommas_ne_comma (s : String) : ∀ c ∈ (replaceCommas s).data, c ≠ ',' := by
  intro c hc
  rcases List.mem_map.mp hc with ⟨c0, _, heq⟩
  by_cases h0 : c0 = ','
  · rw [if_pos h0] at heq
    rw [← heq]
    decide
  · rw [if_neg h0] at heq
    rw [← heq]
    exact h0

/-- Helper for C7: the comma splitter passes over a comma-free chunk, moving it
into the accumulator. -/
theorem splitCommaChars_nocomma (a : List Char) : ∀ rest acc, (∀ c ∈ a, c ≠ ',') →
    splitCommaChars (a ++ rest) acc = splitCommaChars rest (a.reverse ++ acc) := by
  induction a with
  | nil => intro rest acc _; simp
  | cons c a ih =>
    intro rest acc h
    have hc : c ≠ ',' := h c (by simp)
    simp only [List.cons_append]
    rw [show splitCommaChars (c :: (a ++ rest)) acc
        = splitCommaChars (a ++ rest) (c :: acc) from by simp [splitCommaChars, hc]]
    rw [ih rest (c :: acc) (fun y hy => h y (by simp [hy]))]
    simp

/-- Helper for C7: a string equals the string of its characters. -/
theorem stringMkData (s : String) : String.mk s.data = s := by
  cases s
  rfl

/-- Helper for C7: splitting the comma join of comma-free fields recovers the
fields. -/
theorem splitComma_commaJoin (fs : List String) (h0 : fs ≠ [])
    (h : ∀ f ∈ fs, ∀ c ∈ f.data, c ≠ ',') : splitComma (commaJoin fs) = fs := by
  induction fs with
  | nil => exact absurd rfl h0
  | cons f fs ih =>
    cases fs with
    | nil =>
      show splitComma f = [f]
      unfold splitComma
      have hsplit := splitCommaChars_nocomma f.data [] [] (h f (by simp))
      rw [List.append_nil] at hsplit
      rw [hsplit]
      simp only [splitCommaChars, List.append_nil, List.reverse_reverse, List.map_cons,
        List.map_nil]
    | cons g gs =>
      have hdata : (commaJoin (f :: g :: gs)).data
          = f.data ++ (',' :: (commaJoin (g :: gs)).data) := by
        show (f ++ "," ++ commaJoin (g :: gs)).data = _
        rw [String.data_append, String.data_append]
        rw [show (",").data = [','] from rfl]
        simp
      unfold splitComma
      rw [hdata, splitCommaChars_nocomma f.data _ [] (h f (by simp))]
      rw [show splitCommaChars (',' :: (commaJoin (g :: gs)).data) (f.data.reverse ++ [])
          = (f.data.reverse ++ []).reverse :: splitCommaChars (commaJoin (g :: gs)).data []
          from by simp [splitCommaChars]]
      simp only [List.map_cons, List.append_nil, List.reverse_reverse]
      rw [stringMkData]
      have htail := ih (by simp) (fun x hx => h x (by simp at hx ⊢; tauto))
      unfold splitComma at htail
      rw [htail]

/-- Claim C7: the `prof` field written to the CSV is the instructor names joined
with ampersands and every comma replaced by a semicolon, hence comma-free; and a
written row, whose remaining string fields carry no comma, parses back into
exactly its nine fields. -/
theorem c7_csv_sanitization (time : Nat) (c : EnrollmentCountEntry)
    (h1 : ∀ ch ∈ c.subj_course_id.data, ch ≠ ',')
    (h2 : ∀ ch ∈ c.section_code.data, ch ≠ ',')
    (h3 : ∀ ch ∈ c.section_id.data, ch ≠ ',') :
    profJoin c.all_instructors
      = replaceCommas (String.intercalate (" & ") c.all_instructors) ∧
    (∀ ch ∈ (profJoin c.all_instructors).data, ch ≠ ',') ∧
    splitComma (csvRow time c) = csvFields time c ∧
    (csvFields time c).length = 9 := by
  refine ⟨rfl, replaceCommas_ne_comma _, ?_, rfl⟩
  apply splitComma_commaJoin
  · simp [csvFields]
  · intro f hf
    simp only [csvFields, List.mem_cons, List.not_mem_nil, or_false] at hf
    rcases hf with hf | hf | hf | hf | hf | hf | hf | hf | hf <;> rw [hf]
    · exact natDec_ne_comma time
    · exact h1
    · exact h2
    · exact h3
    · exact replaceCommas_ne_comma _
    · exact natDec_ne_comma _
    · exact natDec_ne_comma _
    · exact natDec_ne_comma _
    · exact natDec_ne_comma _

/-- Witness for C7: the sanitization example of the spec, and a concrete row that
splits back into its nine fields. -/
theorem c7_csv_sanitization_witness :
    profJoin ["Doe, Jane", "Roe, John"] = "Doe; Jane & Roe; John" ∧
    splitComma (csvRow 5 ⟨"CSE 8A", "A01", "079911", ["Doe, Jane", "Roe, John"],
        10, 0, 100, 90⟩)
      = csvFields 5 ⟨"CSE 8A", "A01", "079911", ["Doe, Jane", "Roe, John"],
        10, 0, 100, 90⟩ := by
  constructor
  · decide
  · exact (c7_csv_sanitization 5 ⟨"CSE 8A", "A01", "079911", ["Doe, Jane", "Roe, John"],
      10, 0, 100, 90⟩ (by decide) (by decide) (by decide)).2.2.1
